import Mathlib

/-!
Shallow embedding of the `websocket` Go package (github.com/ajsqr/websocket):
the frame model, the masking transform, the frame codec (readFrame /
writeFrame), the fragmentation and reassembly engine (fragment / Send /
Receive), the connection opener (Open), and the handshake accept-token
deriver (SHA-1 + base64).

Byte streams are `List Nat` (each element one byte value).  Go slices become
lists, Go pointer-typed optional fields become `Option`, and Go's three
runtime outcomes are modelled explicitly: a normal return, a returned
non-nil `error`, and a runtime panic (nil-pointer dereference, index out of
range, `make` with negative size).  Loops that Go runs unboundedly are
modelled with explicit fuel so that every definition is structurally
recursive and kernel-evaluable; `none` from a fuelled function means the
fuel ran out, i.e. the Go loop did not terminate within that many
iterations.
-/

namespace Websocket

/-- The error values declared in errors.go, plus one value standing for any
transport-level I/O error (io.EOF and friends) returned by the underlying
reader/writer. -/
inductive Err where
  | badRequest
  | invalidFrameType
  | hijackingNotSupported
  | invalidOpcode
  | invalidLength
  | ioError
deriving DecidableEq

/-- The `Opcode` string constants of the source.  `unset` stands for any
other string value, in particular the Go zero value `""`. -/
inductive Opcode where
  | continuationFrame
  | textFrame
  | binaryFrame
  | nonControlFrame
  | connectionClose
  | ping
  | pong
  | controlFrame
  | unset
deriving DecidableEq

/-- The `WebsocketType` string constants; `other` stands for any other
string value. -/
inductive WebsocketType where
  | text
  | binary
  | other
deriving DecidableEq

/-- Outcome of a Go function call: a normal result, a returned non-nil
error, or a runtime panic. -/
inductive Res (α : Type) where
  | ok : α → Res α
  | err : Err → Res α
  | goPanic : Res α
deriving DecidableEq

/-- The `Frame` struct.  Field defaults are the Go zero values, so a record
expression listing only some fields corresponds to a Go composite literal.
The three `payloadLength*` fields mirror the source's three nullable
pointer fields for one logical value. -/
structure Frame where
  FIN : Bool := false
  RSV1 : Bool := false
  RSV2 : Bool := false
  RSV3 : Bool := false
  Opcode : Opcode := Opcode.unset
  Mask : Bool := false
  payloadLengthInt : Option Nat := none
  payloadLengthInt16 : Option Nat := none
  payloadLengthInt64 : Option Nat := none
  MaskingKey : List Nat := []
  ExtensionData : List Nat := []
  ApplicationData : List Nat := []
deriving DecidableEq

/-- `Frame.PayloadLength`: first non-nil of the three length fields, else 0. -/
def Frame.PayloadLength (f : Frame) : Nat :=
  match f.payloadLengthInt with
  | some n => n
  | none =>
    match f.payloadLengthInt16 with
    | some n => n
    | none =>
      match f.payloadLengthInt64 with
      | some n => n
      | none => 0

/-- The loop body of `Frame.umask`: for each payload byte at index `i`,
append `b ^ mask[i % 4]`.  Returns `none` when the Go code would panic with
an index-out-of-range on `mask[j]` (mask shorter than `i % 4 + 1`). -/
def umaskLoop (mask : List Nat) : List Nat → Nat → Option (List Nat)
  | [], _ => some []
  | b :: rest, i =>
    match mask.get? (i % 4) with
    | none => none
    | some m => (umaskLoop mask rest (i + 1)).map (fun tl => (b ^^^ m) :: tl)

/-- `Frame.umask`: the source allocates `umasked := make([]byte, len(payload))`
(a buffer of `len(payload)` zero bytes) and then APPENDS each xored byte to
it, so the returned slice is the zero prefix followed by the xored bytes.
The Go function's error result is always nil; `none` here is the runtime
panic on indexing a too-short masking key. -/
def Frame.umask (f : Frame) : Option (List Nat) :=
  (umaskLoop f.MaskingKey f.ApplicationData 0).map
    (fun xs => List.replicate f.ApplicationData.length 0 ++ xs)

/-- bufio `ReadByte`: next byte of the stream, or io.EOF on an empty stream. -/
def readByte : List Nat → Res (Nat × List Nat)
  | [] => Res.err Err.ioError
  | b :: rest => Res.ok (b, rest)

/-- bufio `Read` into a `k`-byte buffer, with the returned count ignored as
in the source: an empty buffer reads nothing; at end of stream the read
fails with io.EOF; otherwise up to `k` bytes are copied and the rest of the
buffer keeps its zero fill. -/
def readFull (k : Nat) (s : List Nat) : Res (List Nat × List Nat) :=
  if k = 0 then Res.ok ([], s)
  else if s.isEmpty then Res.err Err.ioError
  else Res.ok (s.take k ++ List.replicate (k - s.length) 0, s.drop k)

/-- `binary.BigEndian.Uint16` of a 2-byte buffer. -/
def beUint16 : List Nat → Nat
  | [a, b] => a * 256 + b
  | _ => 0

/-- `binary.BigEndian.Uint64` of an 8-byte buffer. -/
def beUint64 : List Nat → Nat
  | [a, b, c, d, e, f, g, h] =>
    ((((((a * 256 + b) * 256 + c) * 256 + d) * 256 + e) * 256 + f) * 256 + g) * 256 + h
  | _ => 0

/-- `binary.BigEndian.PutUint16`. -/
def be2 (v : Nat) : List Nat := [v / 256 % 256, v % 256]

/-- `binary.BigEndian.PutUint64`. -/
def be8 (v : Nat) : List Nat :=
  [v / 72057594037927936 % 256, v / 281474976710656 % 256,
   v / 1099511627776 % 256, v / 4294967296 % 256,
   v / 16777216 % 256, v / 65536 % 256, v / 256 % 256, v % 256]

/-- The opcode-nibble switch of `readFrame` (cases 0x00–0x0f); `none` is the
`default` branch returning `InvalidOpcode`. -/
def opcodeOfNibble (n : Nat) : Option Opcode :=
  match n with
  | 0 => some Opcode.continuationFrame
  | 1 => some Opcode.textFrame
  | 2 => some Opcode.binaryFrame
  | 3 | 4 | 5 | 6 | 7 => some Opcode.nonControlFrame
  | 8 => some Opcode.connectionClose
  | 9 => some Opcode.ping
  | 10 => some Opcode.pong
  | 11 | 12 | 13 | 14 | 15 => some Opcode.controlFrame
  | _ => none

/-- The length-tag branch of `readFrame`: tag 0–125 is the length itself,
tag 126 reads a 2-byte big-endian length, tag 127 reads an 8-byte
big-endian length, and any other tag returns `InvalidLength`.  Produces the
three nullable length fields exactly as the source assigns them. -/
def readLengthFields (tag : Nat) (s : List Nat) :
    Res ((Option Nat × Option Nat × Option Nat) × List Nat) :=
  if tag ≤ 125 then Res.ok ((some tag, none, none), s)
  else if tag = 126 then
    match readFull 2 s with
    | Res.err e => Res.err e
    | Res.goPanic => Res.goPanic
    | Res.ok (bs, s2) => Res.ok ((none, some (beUint16 bs), none), s2)
  else if tag = 127 then
    match readFull 8 s with
    | Res.err e => Res.err e
    | Res.goPanic => Res.goPanic
    | Res.ok (bs, s2) => Res.ok ((none, none, some (beUint64 bs)), s2)
  else Res.err Err.invalidLength

/-- The masking-key read of `readFrame`: 4 bytes when the mask bit is set
(a failed read is coerced to `BadRequest` by the source), nothing (nil key)
otherwise. -/
def readMaskKey (maskBit : Bool) (s : List Nat) : Res (List Nat × List Nat) :=
  if maskBit then
    match readFull 4 s with
    | Res.err _ => Res.err Err.badRequest
    | Res.goPanic => Res.goPanic
    | Res.ok (key, s2) => Res.ok (key, s2)
  else Res.ok ([], s)

/-- `readFrame`: decode one frame from the byte stream, returning the frame
and the remaining stream.  Mirrors the source order: first header byte
(FIN + opcode nibble), second header byte (mask bit + length tag), extended
length bytes, masking key, then `PayloadLength()` bytes of application
data (a failed payload read is coerced to `BadRequest`). -/
def readFrame (s : List Nat) : Res (Frame × List Nat) :=
  match readByte s with
  | Res.err e => Res.err e
  | Res.goPanic => Res.goPanic
  | Res.ok (b, s1) =>
    match opcodeOfNibble (b &&& 15) with
    | none => Res.err Err.invalidOpcode
    | some opc =>
      match readByte s1 with
      | Res.err e => Res.err e
      | Res.goPanic => Res.goPanic
      | Res.ok (pm, s2) =>
        let maskBit := decide (pm &&& 128 = 128)
        match readLengthFields (pm &&& 127) s2 with
        | Res.err e => Res.err e
        | Res.goPanic => Res.goPanic
        | Res.ok (fields, s3) =>
          match readMaskKey maskBit s3 with
          | Res.err e => Res.err e
          | Res.goPanic => Res.goPanic
          | Res.ok (key, s4) =>
            let f : Frame :=
              { FIN := decide (b &&& 128 = 128), Opcode := opc, Mask := maskBit,
                payloadLengthInt := fields.1, payloadLengthInt16 := fields.2.1,
                payloadLengthInt64 := fields.2.2, MaskingKey := key }
            match readFull f.PayloadLength s4 with
            | Res.err _ => Res.err Err.badRequest
            | Res.goPanic => Res.goPanic
            | Res.ok (payload, s5) => Res.ok ({ f with ApplicationData := payload }, s5)

/-- The opcode switch of `writeFrame` (bits OR-ed into the first header
byte); `none` is the `default` branch returning `InvalidOpcode`. -/
def opcodeBits : Opcode → Option Nat
  | Opcode.continuationFrame => some 0
  | Opcode.textFrame => some 1
  | Opcode.binaryFrame => some 2
  | Opcode.connectionClose => some 8
  | Opcode.ping => some 9
  | Opcode.pong => some 10
  | _ => none

/-- `writeFrame`: encode one frame to bytes (the sequence written to the
bufio writer and flushed).  The length-tag byte is chosen from
`PayloadLength()`; the 126/127 branches then dereference the corresponding
nullable length field, which is a nil-pointer panic when that field was
never assigned. -/
def writeFrame (frame : Frame) : Res (List Nat) :=
  match opcodeBits frame.Opcode with
  | none => Res.err Err.invalidOpcode
  | some bits =>
    let fi := (if frame.FIN then 128 else 0) ||| bits
    let pl := frame.PayloadLength
    if pl ≤ 125 then
      Res.ok ([fi, pl] ++ frame.ApplicationData)
    else if pl ≤ 65535 then
      match frame.payloadLengthInt16 with
      | none => Res.goPanic
      | some v => Res.ok ([fi, 126] ++ be2 v ++ frame.ApplicationData)
    else if pl ≤ 18446744073709551615 then
      match frame.payloadLengthInt64 with
      | none => Res.goPanic
      | some v => Res.ok ([fi, 127] ++ be8 v ++ frame.ApplicationData)
    else Res.err Err.invalidLength

/-- Result of `fragment` (Go returns the pair `([]*Frame, error)`), or a
runtime panic. -/
inductive FragResult where
  | ret (frames : List Frame) (e : Option Err)
  | goPanic
deriving DecidableEq

/-- The length-field selection inside the fragment loop, branching on the
chunk length exactly as the source does: note the Go conversions, so the
second branch tests `uint16(chunkLength)` (the length mod 2^16) and its
upper bound is strictly below `math.MaxUint16`, and the third branch's
upper bound is strictly below `math.MaxUint64`.  `none` is the final
`else` returning `InvalidLength`. -/
def lengthFields (n : Nat) : Option (Option Nat × Option Nat × Option Nat) :=
  if n < 126 then some (some n, none, none)
  else if 126 ≤ n % 65536 ∧ n % 65536 < 65535 then some (none, some (n % 65536), none)
  else if 65535 ≤ n ∧ n < 18446744073709551615 then some (none, none, some n)
  else none

/-- One frame as built inside the fragment loop: a composite literal setting
only `ApplicationData` and `Opcode`, then the three length fields. -/
def mkDataFrame (chunk : List Nat) : Option Frame :=
  match lengthFields chunk.length with
  | none => none
  | some fields =>
    some { Opcode := Opcode.continuationFrame, payloadLengthInt := fields.1,
           payloadLengthInt16 := fields.2.1, payloadLengthInt64 := fields.2.2,
           ApplicationData := chunk }

/-- `frames[len(frames)-1].FIN = true`: set the FIN flag of the last frame. -/
def setLastFIN : List Frame → List Frame
  | [] => []
  | [f] => [{ f with FIN := true }]
  | f :: g :: rest => f :: setLastFIN (g :: rest)

/-- `frames[0].Opcode = op`: overwrite the first frame's opcode. -/
def setFirstOpcode (op : Opcode) : List Frame → List Frame
  | [] => []
  | f :: rest => { f with Opcode := op } :: rest

/-- `chunkSize := payloadLength; if framingLimit < chunkSize { chunkSize =
framingLimit }`: the chunk size picked at the top of the fragment loop. -/
def goChunkSize (limit : Int) (remLen : Nat) : Int :=
  if limit < (remLen : Int) then limit else (remLen : Int)

/-- The `for` loop of `fragment`.  The loop state is the bytes not yet
consumed from the `bytes.Reader` (always equal to the source's decreasing
`payloadLength` variable).  Each iteration computes
`chunkSize = min(remaining, framingLimit)`; `make([]byte, chunkSize)`
panics when the limit is negative; `Read` yields io.EOF (breaking the
loop) exactly when the reader is exhausted, and otherwise fills the chunk
buffer completely — in particular a zero-size chunk on a non-exhausted
reader reads nothing and the loop state never changes, so the loop never
terminates (fuel runs out: `none`). -/
def fragLoop (limit : Int) : Nat → List Nat → List Frame → Option FragResult
  | 0, _, _ => none
  | fuel + 1, rem, acc =>
    let chunkSize : Int := goChunkSize limit rem.length
    if chunkSize < 0 then some FragResult.goPanic
    else if rem.length = 0 then some (FragResult.ret acc none)
    else
      let k := chunkSize.toNat
      let chunk := rem.take k
      match mkDataFrame chunk with
      | none => some (FragResult.ret acc (some Err.invalidLength))
      | some f => fragLoop limit fuel (rem.drop k) (acc ++ [f])

/-- A `Websocket` connection's pure configuration: the message type and the
framing limit copied from the opener's `MaxBytes` (a Go `int`, so possibly
zero or negative).  The bufio reader/writer are passed explicitly as byte
streams. -/
structure Conn where
  t : WebsocketType
  framingLimit : Int
deriving DecidableEq

/-- `fragment`: run the chunking loop, then — when at least one frame was
produced — set FIN on the last frame and the message-type opcode on the
first (the `default` websocket type returns the frames together with
`InvalidFrameType`, after the FIN flag was already set). -/
def Conn.fragment (ws : Conn) (data : List Nat) (fuel : Nat) : Option FragResult :=
  match fragLoop ws.framingLimit fuel data [] with
  | none => none
  | some FragResult.goPanic => some FragResult.goPanic
  | some (FragResult.ret frames (some e)) => some (FragResult.ret frames (some e))
  | some (FragResult.ret frames none) =>
    if frames.isEmpty then some (FragResult.ret frames none)
    else
      let frames1 := setLastFIN frames
      match ws.t with
      | WebsocketType.text =>
        some (FragResult.ret (setFirstOpcode Opcode.textFrame frames1) none)
      | WebsocketType.binary =>
        some (FragResult.ret (setFirstOpcode Opcode.binaryFrame frames1) none)
      | WebsocketType.other =>
        some (FragResult.ret frames1 (some Err.invalidFrameType))

/-- The write loop of `Send`: encode each frame in order, stopping at the
first error; the concatenated bytes are what reached the wire. -/
def writeFrames : List Frame → Res (List Nat)
  | [] => Res.ok []
  | f :: rest =>
    match writeFrame f with
    | Res.err e => Res.err e
    | Res.goPanic => Res.goPanic
    | Res.ok bs =>
      match writeFrames rest with
      | Res.err e => Res.err e
      | Res.goPanic => Res.goPanic
      | Res.ok bs2 => Res.ok (bs ++ bs2)

/-- `Send`: fragment the message, then write every frame.  On a fragment
error the error alone is returned (the frames are dropped); `none` means
the fragmentation loop ran out of fuel. -/
def Conn.Send (ws : Conn) (data : List Nat) (fuel : Nat) : Option (Res (List Nat)) :=
  match ws.fragment data fuel with
  | none => none
  | some FragResult.goPanic => some Res.goPanic
  | some (FragResult.ret _ (some e)) => some (Res.err e)
  | some (FragResult.ret frames none) => some (writeFrames frames)

/-- Outcome of `Receive`: Go returns `(message, error)`, so both the success
and the failure case carry the message bytes accumulated so far. -/
inductive RecvResult where
  | ok (msg : List Nat)
  | fail (msg : List Nat) (e : Err)
  | goPanic
deriving DecidableEq

/-- The `for` loop of `Receive`: read a frame (on error, return the
accumulated message with the error), unmask it (the source's unmask error
branch is dead — `umask` never returns a non-nil error — but unmasking can
panic), append the unmasked bytes to the message, and stop at a FIN
frame. -/
def receiveLoop : Nat → List Nat → List Nat → Option RecvResult
  | 0, _, _ => none
  | fuel + 1, s, msg =>
    match readFrame s with
    | Res.err e => some (RecvResult.fail msg e)
    | Res.goPanic => some RecvResult.goPanic
    | Res.ok (f, rest) =>
      match f.umask with
      | none => some RecvResult.goPanic
      | some um =>
        let msg1 := msg ++ um
        if f.FIN then some (RecvResult.ok msg1)
        else receiveLoop fuel rest msg1

/-- `Receive`: run the receive loop on the input stream with an empty
accumulator. -/
def Receive (fuel : Nat) (s : List Nat) : Option RecvResult :=
  receiveLoop fuel s []

/-- The `WSOpener` configuration struct. -/
structure WSOpener where
  MaxBytes : Int
deriving DecidableEq

/-- `Open`: upgrade the HTTP connection.  The hijack capability, the hijack
call's outcome and the handshake write's outcome are transport effects and
are passed in as inputs; the decision logic mirrors the source: fail when
hijacking is unsupported, when the hijack errs, or when the handshake
write errs — and otherwise return a connection whose `framingLimit` is
`MaxBytes`, which is never validated. -/
def WSOpener.Open (wso : WSOpener) (hijackSupported : Bool) (hijackErr : Option Err)
    (handshakeErr : Option Err) (t : WebsocketType) : Except Err Conn :=
  if !hijackSupported then Except.error Err.hijackingNotSupported
  else
    match hijackErr with
    | some e => Except.error e
    | none =>
      match handshakeErr with
      | some e => Except.error e
      | none => Except.ok { t := t, framingLimit := wso.MaxBytes }

/-- Left rotation of a 32-bit word (inputs are kept below 2^32). -/
def rotl32 (n x : Nat) : Nat :=
  ((x <<< n) ||| (x >>> (32 - n))) % 4294967296

/-- The SHA-1 round function f_t (FIPS 180, as computed by Go's
crypto/sha1); bitwise NOT of a 32-bit word is xor with 2^32 − 1. -/
def sha1F (t b c d : Nat) : Nat :=
  if t < 20 then (b &&& c) ||| ((b ^^^ 4294967295) &&& d)
  else if t < 40 then b ^^^ c ^^^ d
  else if t < 60 then (b &&& c) ||| (b &&& d) ||| (c &&& d)
  else b ^^^ c ^^^ d

/-- The SHA-1 round constants K_t. -/
def sha1K (t : Nat) : Nat :=
  if t < 20 then 1518500249
  else if t < 40 then 1859775393
  else if t < 60 then 2400959708
  else 3395469782

/-- Big-endian 32-bit words from a byte sequence. -/
def bytesToWords : List Nat → List Nat
  | a :: b :: c :: d :: rest => (((a * 256 + b) * 256 + c) * 256 + d) :: bytesToWords rest
  | _ => []

/-- Extend the 16 message words to 80:
W_t = rotl1(W_{t−3} xor W_{t−8} xor W_{t−14} xor W_{t−16}). -/
def sha1Expand : List Nat → Nat → List Nat
  | w, 0 => w
  | w, n + 1 =>
    let t := w.length
    let x := rotl32 1 ((w.getD (t - 3) 0) ^^^ (w.getD (t - 8) 0) ^^^
                      (w.getD (t - 14) 0) ^^^ (w.getD (t - 16) 0))
    sha1Expand (w ++ [x]) n

/-- One SHA-1 round on the working state (a, b, c, d, e) with round index
`t` and message word `wt`. -/
def sha1Step (st : Nat × Nat × Nat × Nat × Nat) (tw : Nat × Nat) :
    Nat × Nat × Nat × Nat × Nat :=
  let temp := (rotl32 5 st.1 + sha1F tw.1 st.2.1 st.2.2.1 st.2.2.2.1 +
               st.2.2.2.2 + sha1K tw.1 + tw.2) % 4294967296
  (temp, st.1, rotl32 30 st.2.1, st.2.2.1, st.2.2.2.1)

/-- Compress one 64-byte block into the running hash state. -/
def sha1Compress (h : Nat × Nat × Nat × Nat × Nat) (block : List Nat) :
    Nat × Nat × Nat × Nat × Nat :=
  let w := sha1Expand (bytesToWords block) 64
  let r := (w.enum.foldl sha1Step h)
  ((h.1 + r.1) % 4294967296, (h.2.1 + r.2.1) % 4294967296,
   (h.2.2.1 + r.2.2.1) % 4294967296, (h.2.2.2.1 + r.2.2.2.1) % 4294967296,
   (h.2.2.2.2 + r.2.2.2.2) % 4294967296)

/-- SHA-1 padding: append 0x80, zeros up to 56 mod 64, then the bit length
as a 64-bit big-endian value. -/
def sha1Pad (msg : List Nat) : List Nat :=
  let k := (120 - (msg.length + 1) % 64) % 64
  msg ++ [128] ++ List.replicate k 0 ++ be8 (8 * msg.length)

/-- Split a padded message into 64-byte blocks (fuelled by the length so the
recursion is structural). -/
def splitBlocksAux : Nat → List Nat → List (List Nat)
  | 0, _ => []
  | _, [] => []
  | n + 1, l => l.take 64 :: splitBlocksAux n (l.drop 64)

/-- All 64-byte blocks of a padded message. -/
def splitBlocks (l : List Nat) : List (List Nat) :=
  splitBlocksAux (l.length + 1) l

/-- Big-endian bytes of a 32-bit word. -/
def be4 (v : Nat) : List Nat :=
  [v / 16777216 % 256, v / 65536 % 256, v / 256 % 256, v % 256]

/-- Modelled from the algorithm of Go's crypto/sha1 (`sha1.Sum`): the
20-byte SHA-1 digest of a byte sequence. -/
def sha1Sum (msg : List Nat) : List Nat :=
  let h := (splitBlocks (sha1Pad msg)).foldl sha1Compress
             (1732584193, 4023233417, 2562383102, 271733878, 3285377520)
  be4 h.1 ++ be4 h.2.1 ++ be4 h.2.2.1 ++ be4 h.2.2.2.1 ++ be4 h.2.2.2.2

/-- The standard base64 alphabet of Go's encoding/base64 `StdEncoding`. -/
def base64Alphabet : List Char :=
  "ABCDEFGHIJKLMNOPQRSTUVWXYZabcdefghijklmnopqrstuvwxyz0123456789+/".data

/-- Modelled from the algorithm of Go's encoding/base64
(`StdEncoding.EncodeToString`): groups of three bytes become four alphabet
characters, with `=` padding for a final group of one or two bytes. -/
def base64Chars : List Nat → List Char
  | [] => []
  | [a] =>
    let n := a * 65536
    [base64Alphabet.getD (n / 262144 % 64) 'A', base64Alphabet.getD (n / 4096 % 64) 'A',
     '=', '=']
  | [a, b] =>
    let n := a * 65536 + b * 256
    [base64Alphabet.getD (n / 262144 % 64) 'A', base64Alphabet.getD (n / 4096 % 64) 'A',
     base64Alphabet.getD (n / 64 % 64) 'A', '=']
  | a :: b :: c :: rest =>
    let n := a * 65536 + b * 256 + c
    [base64Alphabet.getD (n / 262144 % 64) 'A', base64Alphabet.getD (n / 4096 % 64) 'A',
     base64Alphabet.getD (n / 64 % 64) 'A', base64Alphabet.getD (n % 64) 'A'] ++
    base64Chars rest

/-- UTF-8 bytes of a string; the keys and the GUID involved here are ASCII,
where the UTF-8 encoding is the code-point sequence itself. -/
def strBytes (s : String) : List Nat := s.data.map Char.toNat

/-- The `websocketGUID` constant of opener.go. -/
def websocketGUID : String := "258EAFA5-E914-47DA-95CA-C5AB0DC85B11"

/-- `generateWebsocketAcceptToken`: base64 of the SHA-1 digest of the key
concatenated with the GUID. -/
def generateWebsocketAcceptToken (secWebsocketKey : String) : String :=
  String.mk (base64Chars (sha1Sum (strBytes (secWebsocketKey ++ websocketGUID))))

/-! ## Theorems about the claims -/

/-- C1: the round trip fails.  For payload `[1]` and chunk bound 1 the send
path (fragment + encode) succeeds and puts the frame bytes `[129, 1, 1]` on
the wire, but the receive loop's reassembly of exactly those bytes ends in
a runtime panic (the frame is unmasked, as server frames are, and `umask`
indexes the empty masking key), so the reassembled result is not the
payload `[1]`. -/
theorem c1_roundtrip_reassembly_panics :
    Conn.Send ⟨WebsocketType.text, 1⟩ [1] 10 = some (Res.ok [129, 1, 1]) ∧
    Receive 10 [129, 1, 1] = some RecvResult.goPanic ∧
    some RecvResult.goPanic ≠ some (RecvResult.ok [1]) := by decide

/-- C2: the masking transform corrupts its output.  On the one-byte payload
`[1]` with key `[0,0,0,0]`, `umask` returns `[0, 1]` — length 2, not the
input length 1 — because it appends to a buffer already holding
`len(payload)` zero bytes; applying the transform twice yields
`[0, 0, 0, 1]`, not the original data. -/
theorem c2_umask_append_corrupts_output :
    Frame.umask { Mask := true, MaskingKey := [0, 0, 0, 0], ApplicationData := [1] }
      = some [0, 1] ∧
    Frame.umask { Mask := true, MaskingKey := [0, 0, 0, 0], ApplicationData := [0, 1] }
      = some [0, 0, 0, 1] ∧
    ([0, 1] : List Nat) ≠ [1] := by decide

/-- C3: the 65535-byte boundary is broken.  For a single chunk of exactly
65535 bytes the fragment loop stores the length in the 64-bit field (its
16-bit branch requires the length to be strictly below `math.MaxUint16`),
and `writeFrame` on the resulting frame then selects the 16-bit tag and
dereferences the never-assigned 16-bit field: a nil-pointer runtime
panic, not a symmetric 16-bit encoding. -/
theorem c3_length_65535_wrong_field_then_panic (chunk : List Nat)
    (h : chunk.length = 65535) :
    mkDataFrame chunk
      = some { Opcode := Opcode.continuationFrame, payloadLengthInt64 := some 65535,
               ApplicationData := chunk } ∧
    writeFrame { Opcode := Opcode.continuationFrame, payloadLengthInt64 := some 65535,
                 ApplicationData := chunk } = Res.goPanic := by
  have hl65 : lengthFields 65535 = some (none, none, some 65535) := by decide
  exact ⟨by simp only [mkDataFrame, h, hl65], rfl⟩

/-- The 65535-byte boundary failure of C3 at the concrete chunk
`List.replicate 65535 7`. -/
theorem c3_length_65535_wrong_field_then_panic_witness :
    (List.replicate 65535 7).length = 65535 ∧
    (mkDataFrame (List.replicate 65535 7)
      = some { Opcode := Opcode.continuationFrame, payloadLengthInt64 := some 65535,
               ApplicationData := List.replicate 65535 7 } ∧
    writeFrame { Opcode := Opcode.continuationFrame, payloadLengthInt64 := some 65535,
                 ApplicationData := List.replicate 65535 7 } = Res.goPanic) :=
  ⟨List.length_replicate 65535 7,
   c3_length_65535_wrong_field_then_panic (List.replicate 65535 7)
     (List.length_replicate 65535 7)⟩

/-- C4: `Receive` panics on protocol input.  The three wire bytes
`[129, 1, 65]` are a well-formed unmasked FIN text frame with a one-byte
payload; decoding succeeds, but the receive loop's unmask step indexes the
empty masking key and the process aborts with a runtime panic instead of
returning a typed error. -/
theorem c4_receive_panics_on_unmasked_frame :
    Receive 2 [129, 1, 65] = some RecvResult.goPanic := by decide

/-- C5: fragmenting an empty payload yields zero frames, not one.  The
first loop iteration's read immediately reports end-of-stream, the loop
breaks with no frame built, and the FIN/opcode post-processing is skipped
entirely, so `Send` of an empty payload writes nothing to the wire. -/
theorem c5_empty_payload_yields_zero_frames :
    Conn.fragment ⟨WebsocketType.text, 20⟩ [] 3 = some (FragResult.ret [] none) ∧
    Conn.Send ⟨WebsocketType.text, 20⟩ [] 3 = some (Res.ok []) := by decide

/-- With a zero framing limit and a non-empty remainder the fragment loop
never terminates: every iteration reads a zero-byte chunk, appends an
empty frame and leaves the remainder unchanged, so no amount of fuel
completes the loop. -/
theorem fragLoop_zero_limit_diverges (rem : List Nat) (h : rem ≠ []) :
    ∀ fuel acc, fragLoop 0 fuel rem acc = none := by
  intro fuel
  induction fuel with
  | zero => intro acc; rfl
  | succ n ih =>
    intro acc
    have hlen : 0 < rem.length := List.length_pos.mpr h
    have hcs : goChunkSize 0 rem.length = 0 := by
      unfold goChunkSize
      rw [if_pos (by exact_mod_cast hlen)]
    simp only [fragLoop, hcs]
    rw [if_neg (by omega), if_neg (by omega)]
    simp only [Int.toNat_zero, List.take_zero, List.drop_zero]
    have hmk : mkDataFrame [] = some { Opcode := Opcode.continuationFrame,
                                       payloadLengthInt := some 0 } := by
      simp [mkDataFrame, lengthFields]
    rw [hmk]
    exact ih _

/-- C8: `Open` performs no validation of the configured `MaxBytes` bound.
With `MaxBytes = 0` (and a host that supports hijacking and a successful
handshake) `Open` succeeds and hands out a connection whose framing limit
is 0 — and on that connection the fragmentation loop for the one-byte
payload `[1]` never terminates, whatever fuel it is given, instead of the
bound having been rejected at open time. -/
theorem c8_open_accepts_zero_bound_then_fragment_diverges :
    WSOpener.Open ⟨0⟩ true none none WebsocketType.text
      = Except.ok { t := WebsocketType.text, framingLimit := 0 } ∧
    ∀ fuel, Conn.fragment ⟨WebsocketType.text, 0⟩ [1] fuel = none := by
  refine ⟨rfl, fun fuel => ?_⟩
  unfold Conn.fragment
  rw [fragLoop_zero_limit_diverges [1] (by decide) fuel []]

set_option maxRecDepth 100000 in
/-- C7: the accept-token deriver computes base64 of the SHA-1 digest of the
key concatenated with the RFC GUID for every key, and on the RFC 6455 §1.3
worked example key it produces exactly the expected token. -/
theorem c7_accept_token_vector :
    (∀ key, generateWebsocketAcceptToken key =
      String.mk (base64Chars (sha1Sum (strBytes (key ++ websocketGUID))))) ∧
    generateWebsocketAcceptToken "dGhlIHNhbXBsZSBub25jZQ==" =
      "s3pPLMBiTxaQ9kYGzzhZRbK+xOo=" :=
  ⟨fun _ => rfl, by decide⟩

/-- Every 4-bit opcode nibble is mapped by the opcode switch: the `default`
branch needs a value above 15. -/
theorem opcodeOfNibble_isSome : ∀ n, n ≤ 15 → (opcodeOfNibble n).isSome := by decide

/-- The stream reads of `readFull` fail only with the transport error. -/
theorem readFull_err_ioError (k : Nat) (s : List Nat) (e : Err)
    (h : readFull k s = Res.err e) : e = Err.ioError := by
  unfold readFull at h
  split at h
  · exact absurd h (by simp)
  split at h
  · exact (Res.err.injEq .. ▸ h).symm
  · exact absurd h (by simp)

/-- For a 7-bit length tag the length branch never produces the defensive
`InvalidLength` error: a returned error can only be the transport error of
an extended-length read. -/
theorem readLengthFields_err (tag : Nat) (s : List Nat) (e : Err) (htag : tag ≤ 127)
    (h : readLengthFields tag s = Res.err e) : e = Err.ioError := by
  unfold readLengthFields at h
  split at h
  · exact absurd h (by simp)
  rename_i h125
  split at h
  · rcases hf : readFull 2 s with p | e2 | _ <;> rw [hf] at h <;> simp at h
    exact h ▸ readFull_err_ioError 2 s e2 hf
  rename_i h126
  split at h
  · rcases hf : readFull 8 s with p | e2 | _ <;> rw [hf] at h <;> simp at h
    exact h ▸ readFull_err_ioError 8 s e2 hf
  · rename_i h127
    omega

/-- A masking-key read fails only with `BadRequest`. -/
theorem readMaskKey_err (mb : Bool) (s : List Nat) (e : Err)
    (h : readMaskKey mb s = Res.err e) : e = Err.badRequest := by
  unfold readMaskKey at h
  split at h
  · rcases hf : readFull 4 s with p | e2 | _ <;> rw [hf] at h <;> simp at h
    exact h.symm
  · exact absurd h (by simp)

/-- C9: the decoder's two defensive error branches are unreachable.  For
every input byte stream `readFrame` returns neither `InvalidOpcode` nor
`InvalidLength`: the opcode nibble is 4 bits so all 16 switch cases cover
it, and the 7-bit length tag is covered by the 0–125, 126 and 127
branches. -/
theorem c9_defensive_branches_unreachable (s : List Nat) :
    readFrame s ≠ Res.err Err.invalidOpcode ∧ readFrame s ≠ Res.err Err.invalidLength := by
  unfold readFrame
  cases s with
  | nil => simp [readByte]
  | cons b s1 =>
    simp only [readByte]
    rcases ho : opcodeOfNibble (b &&& 15) with _ | opc
    · have hs := opcodeOfNibble_isSome (b &&& 15) Nat.and_le_right
      rw [ho] at hs
      simp at hs
    cases s1 with
    | nil => simp [readByte]
    | cons pm s2 =>
      simp only [readByte]
      rcases hl : readLengthFields (pm &&& 127) s2 with ⟨fields, s3⟩ | e | _
      · rcases hm : readMaskKey (decide (pm &&& 128 = 128)) s3 with ⟨key, s4⟩ | e | _
        · set f : Frame :=
            { FIN := decide (b &&& 128 = 128), Opcode := opc,
              Mask := decide (pm &&& 128 = 128), payloadLengthInt := fields.1,
              payloadLengthInt16 := fields.2.1, payloadLengthInt64 := fields.2.2,
              MaskingKey := key } with hf
          rcases hp : readFull f.PayloadLength s4 with ⟨payload, s5⟩ | e | _ <;>
            simp [hf] at hp <;> simp [hp] <;> simp_all
        · have := readMaskKey_err _ s3 e hm
          subst this
          simp_all
        · simp_all
      · have := readLengthFields_err (pm &&& 127) s2 e Nat.and_le_right hl
        subst this
        simp_all
      · simp_all

/-- Whenever the receive loop ends in an error, the returned message bytes
extend the accumulator it started from: nothing accumulated is discarded on
failure. -/
theorem receiveLoop_fail_extends (fuel : Nat) :
    ∀ s msg m e, receiveLoop fuel s msg = some (RecvResult.fail m e) →
      ∃ t, msg ++ t = m := by
  induction fuel with
  | zero => intro s msg m e h; simp [receiveLoop] at h
  | succ n ih =>
    intro s msg m e h
    simp only [receiveLoop] at h
    rcases hr : readFrame s with ⟨f, rest⟩ | e2 | _ <;> rw [hr] at h <;> dsimp only at h
    · rcases hu : f.umask with _ | um <;> rw [hu] at h <;> dsimp only at h
      · simp at h
      · by_cases hfin : f.FIN
        · simp [hfin] at h
        · simp only [hfin, Bool.false_eq_true, if_false] at h
          obtain ⟨t, ht⟩ := ih rest (msg ++ um) m e h
          exact ⟨um ++ t, by rw [← List.append_assoc, ht]⟩
    · simp at h
      exact ⟨[], by simp [h.1]⟩
    · simp at h

/-- C10: a mid-message failure is not atomic.  If one more (non-final)
frame decodes and unmasks from the stream and the rest of the receive loop
then fails with error `e` carrying message `m`, the whole loop returns that
same failure — and `m` extends the bytes accumulated so far (the prior
accumulator plus this frame's unmasked bytes), so the caller receives the
partially accumulated message together with the error rather than an empty
result. -/
theorem c10_receive_returns_partial_message (fuel : Nat) (s rest msg m u : List Nat)
    (f : Frame) (e : Err) (h1 : readFrame s = Res.ok (f, rest)) (h2 : f.FIN = false)
    (h3 : f.umask = some u)
    (h4 : receiveLoop fuel rest (msg ++ u) = some (RecvResult.fail m e)) :
    receiveLoop (fuel + 1) s msg = some (RecvResult.fail m e) ∧
    ∃ t, (msg ++ u) ++ t = m := by
  refine ⟨?_, receiveLoop_fail_extends fuel rest (msg ++ u) m e h4⟩
  simp only [receiveLoop, h1, h3, h2, Bool.false_eq_true, if_false]
  exact h4

/-- C10 at a concrete input: the stream holds one masked non-FIN text frame
(payload byte 5) and then ends; the loop accumulates that frame's unmasked
bytes `[0, 5]` and the next frame read hits end-of-stream, so `Receive`
returns `[0, 5]` together with the transport error. -/
theorem c10_receive_returns_partial_message_witness :
    receiveLoop 2 [1, 129, 0, 0, 0, 0, 5] [] = some (RecvResult.fail [0, 5] Err.ioError) ∧
    ∃ t, ([] ++ [0, 5]) ++ t = [0, 5] :=
  c10_receive_returns_partial_message 1 [1, 129, 0, 0, 0, 0, 5] [] [] [0, 5] [0, 5]
    { FIN := false, Opcode := Opcode.textFrame, Mask := true, payloadLengthInt := some 1,
      MaskingKey := [0, 0, 0, 0], ApplicationData := [5] }
    Err.ioError (by decide) (by decide) (by decide) (by decide)

/-- For any chunk length a Go slice can have (a non-negative `int`, so
below 2^63) the length-field selection succeeds: the loop's defensive
`InvalidLength` branch is unreachable. -/
theorem lengthFields_isSome (n : Nat) (h : n < 9223372036854775808) :
    ∃ fs, lengthFields n = some fs := by
  unfold lengthFields
  split
  · exact ⟨_, rfl⟩
  split
  · exact ⟨_, rfl⟩
  split
  · exact ⟨_, rfl⟩
  · rename_i h1 h2 h3
    exfalso
    omega

/-- Every chunk of Go-slice length yields a loop frame: FIN unset,
Continuation opcode, and the chunk as application data. -/
theorem mkDataFrame_spec (chunk : List Nat) (h : chunk.length < 9223372036854775808) :
    ∃ f, mkDataFrame chunk = some f ∧ f.FIN = false ∧
      f.Opcode = Opcode.continuationFrame ∧ f.ApplicationData = chunk := by
  obtain ⟨fs, hfs⟩ := lengthFields_isSome chunk.length h
  refine ⟨{ Opcode := Opcode.continuationFrame, payloadLengthInt := fs.1,
            payloadLengthInt16 := fs.2.1, payloadLengthInt64 := fs.2.2,
            ApplicationData := chunk }, ?_, rfl, rfl, rfl⟩
  simp [mkDataFrame, hfs]

/-- With a positive framing limit the fragment loop terminates within
`length + 1` iterations and returns, error-free, the frames accumulated so
far followed by one frame per chunk — every produced frame still has FIN
unset and the Continuation opcode, and a non-empty remainder produces at
least one frame. -/
theorem fragLoop_spec (limit : Int) (hl : 1 ≤ limit) :
    ∀ fuel (rem : List Nat) (acc : List Frame),
      rem.length < fuel → rem.length < 9223372036854775808 →
      ∃ nf, fragLoop limit fuel rem acc = some (FragResult.ret (acc ++ nf) none) ∧
        (∀ f ∈ nf, f.FIN = false ∧ f.Opcode = Opcode.continuationFrame) ∧
        (rem ≠ [] → nf ≠ []) := by
  intro fuel
  induction fuel with
  | zero => intro rem acc h _; omega
  | succ n ih =>
    intro rem acc hfuel hbound
    by_cases hrem : rem = []
    · subst hrem
      refine ⟨[], ?_, by simp, by simp⟩
      have hcs : goChunkSize limit 0 = 0 := by
        unfold goChunkSize
        rw [if_neg (by omega)]
        rfl
      simp [fragLoop, hcs]
    · have hpos : 0 < rem.length := List.length_pos.mpr hrem
      have hcs1 : 1 ≤ goChunkSize limit rem.length := by
        unfold goChunkSize
        split
        · exact hl
        · exact_mod_cast hpos
      have hcsle : (goChunkSize limit rem.length).toNat ≤ rem.length := by
        unfold goChunkSize
        split
        · rename_i hsp
          omega
        · omega
      have hk1 : 1 ≤ (goChunkSize limit rem.length).toNat := by omega
      obtain ⟨f, hmk, hfin, hop, _⟩ :=
        mkDataFrame_spec (rem.take (goChunkSize limit rem.length).toNat)
          (by simp only [List.length_take]; omega)
      obtain ⟨nf, hloop, hprops, _⟩ :=
        ih (rem.drop (goChunkSize limit rem.length).toNat) (acc ++ [f])
          (by simp only [List.length_drop]; omega)
          (by simp only [List.length_drop]; omega)
      refine ⟨f :: nf, ?_, ?_, by simp⟩
      · simp only [fragLoop]
        rw [if_neg (by omega), if_neg (by omega), hmk]
        dsimp only
        rw [hloop]
        simp
      · intro g hg
        rcases List.mem_cons.mp hg with hg | hg
        · exact hg ▸ ⟨hfin, hop⟩
        · exact hprops g hg

/-- Setting the FIN flag of the last frame, on a list decomposed as
`init ++ [last]`. -/
theorem setLastFIN_append (init : List Frame) (f : Frame) :
    setLastFIN (init ++ [f]) = init ++ [{ f with FIN := true }] := by
  induction init with
  | nil => rfl
  | cons g rest ih =>
    cases rest with
    | nil => rfl
    | cons g2 rest2 => simpa [setLastFIN] using ih

/-- C6: FIN and opcode placement.  For every non-empty payload, every chunk
bound ≥ 1 (of Go-slice magnitude) and a text or binary connection type,
fragmentation succeeds without error and yields a non-empty frame list in
which the last frame — and only the last — has `fin=true`, the first frame
carries the connection's message-type opcode, and every frame after the
first carries the Continuation opcode. -/
theorem c6_fin_and_opcode_placement (data : List Nat) (limit : Nat) (t : WebsocketType)
    (op : Opcode) (hd : data ≠ []) (hl : 1 ≤ limit)
    (hbound : data.length < 9223372036854775808)
    (ht : (t = WebsocketType.text ∧ op = Opcode.textFrame) ∨
          (t = WebsocketType.binary ∧ op = Opcode.binaryFrame)) :
    ∃ frames, Conn.fragment ⟨t, (limit : Int)⟩ data (data.length + 1)
        = some (FragResult.ret frames none) ∧
      frames ≠ [] ∧
      frames.getLast?.map Frame.FIN = some true ∧
      (∀ f ∈ frames.dropLast, f.FIN = false) ∧
      frames.head?.map Frame.Opcode = some op ∧
      (∀ f ∈ frames.tail, f.Opcode = Opcode.continuationFrame) := by
  have hlim : (1 : Int) ≤ (limit : Int) := by exact_mod_cast hl
  obtain ⟨nf, hloop, hprops, hne⟩ :=
    fragLoop_spec (limit : Int) hlim (data.length + 1) data [] (by omega) hbound
  have hnf : nf ≠ [] := hne hd
  rw [List.nil_append] at hloop
  have hfrag : Conn.fragment ⟨t, (limit : Int)⟩ data (data.length + 1)
      = some (FragResult.ret (setFirstOpcode op (setLastFIN nf)) none) := by
    unfold Conn.fragment
    dsimp only
    rw [hloop]
    dsimp only
    rw [if_neg (by simp [hnf])]
    rcases ht with ⟨ht1, ht2⟩ | ⟨ht1, ht2⟩ <;> subst ht1 <;> subst ht2 <;> rfl
  rcases List.eq_nil_or_concat nf with hcon | ⟨init, lastf, hd2⟩
  · exact absurd hcon hnf
  subst hd2
  simp only [List.concat_eq_append] at hprops hnf hfrag
  have hlastmem : lastf ∈ init ++ [lastf] := by simp
  rw [setLastFIN_append] at hfrag
  cases init with
  | nil =>
    rw [List.nil_append] at hfrag
    refine ⟨_, hfrag, ?_, ?_, ?_, ?_, ?_⟩ <;> simp [setFirstOpcode]
  | cons f0 irest =>
    have hform : setFirstOpcode op ((f0 :: irest) ++ [{ lastf with FIN := true }])
        = ({ f0 with Opcode := op } :: irest) ++ [{ lastf with FIN := true }] := by
      simp [setFirstOpcode]
    rw [hform] at hfrag
    have hf0 : f0 ∈ (f0 :: irest) ++ [lastf] := by simp
    refine ⟨_, hfrag, by simp, ?_, ?_, ?_, ?_⟩
    · rw [List.getLast?_concat]
      rfl
    · rw [List.dropLast_concat]
      intro g hg
      rcases List.mem_cons.mp hg with hg | hg
      · subst hg
        exact (hprops f0 hf0).1
      · exact (hprops g (by simp [hg])).1
    · rfl
    · intro g hg
      rw [List.cons_append, List.tail_cons] at hg
      rcases List.mem_append.mp hg with hg | hg
      · exact (hprops g (by simp [hg])).2
      · rw [List.mem_singleton.mp hg]
        exact (hprops lastf hlastmem).2

/-- C6 at a concrete input: payload `[1, 2, 3]`, chunk bound 2, text
connection. -/
theorem c6_fin_and_opcode_placement_witness :
    ([1, 2, 3] : List Nat) ≠ [] ∧ 1 ≤ 2 ∧
    ([1, 2, 3] : List Nat).length < 9223372036854775808 ∧
    ∃ frames, Conn.fragment ⟨WebsocketType.text, ((2 : Nat) : Int)⟩ [1, 2, 3]
        (([1, 2, 3] : List Nat).length + 1) = some (FragResult.ret frames none) ∧
      frames ≠ [] ∧
      frames.getLast?.map Frame.FIN = some true ∧
      (∀ f ∈ frames.dropLast, f.FIN = false) ∧
      frames.head?.map Frame.Opcode = some Opcode.textFrame ∧
      (∀ f ∈ frames.tail, f.Opcode = Opcode.continuationFrame) :=
  ⟨by decide, by decide, by decide,
   c6_fin_and_opcode_placement [1, 2, 3] 2 WebsocketType.text Opcode.textFrame
     (by decide) (by decide) (by decide) (Or.inl ⟨rfl, rfl⟩)⟩

end Websocket
